import Mathlib

/-!
Shallow embedding of the Outpatient No-Show Predictor dashboard
(`src/App.py`) and proofs of the specified properties of its
aggregation / risk-estimation logic.

The appointment table is a list of rows; pandas boolean masking becomes
`List.filter`, `groupby(...).size()` and `value_counts()` become counting
over deduplicated keys, and probabilities are rationals.  The source
displays probabilities as percentages (it multiplies the ratio by 100
before formatting `"{prob:.1f}%"`); the spec states the same quantities
as fractions in `[0,1]`, and the theorems below relate the two scalings
explicitly.
-/

namespace NoShow

/-- Row of the appointment table after loading: `appointment_date` is
modelled as a day index (only equality and ordering of dates matter to the
logic), the other columns are the category strings.  `day_of_week` is the
column derived at load time (`App.py` line 17). -/
structure Row where
  appointment_date : Nat
  status : String
  reason_for_visit : String
  day_of_week : String
deriving DecidableEq

/-- Raw CSV row before `load_data` derives the `day_of_week` column. -/
structure RawRow where
  appointment_date : Nat
  status : String
  reason_for_visit : String
deriving DecidableEq

/-- Weekday name of a day index, modelling `dt.day_name()` with day 0 a
Monday. -/
def dayName (d : Nat) : String :=
  ["Monday", "Tuesday", "Wednesday", "Thursday", "Friday", "Saturday",
    "Sunday"].getD (d % 7) "Monday"

/-- The loader (`App.py` lines 14-18): reads the table and appends the
derived `day_of_week` column. -/
def load_data (raws : List RawRow) : List Row :=
  raws.map (fun r =>
    { appointment_date := r.appointment_date
      status := r.status
      reason_for_visit := r.reason_for_visit
      day_of_week := dayName r.appointment_date })

/-- Sidebar predictor subset (`App.py` line 38): rows of the FULL table
matching the chosen reason and day of week. -/
def risk_data (df : List Row) (pred_reason pred_day : String) : List Row :=
  df.filter (fun r =>
    r.reason_for_visit == pred_reason && r.day_of_week == pred_day)

/-- Number of no-show rows in the predictor subset (`App.py` line 41). -/
def risk_count (df : List Row) (pred_reason pred_day : String) : Nat :=
  ((risk_data df pred_reason pred_day).filter
    (fun r => r.status == "No-show")).length

/-- Size of the predictor subset (`App.py` line 42). -/
def total_risk_cases (df : List Row) (pred_reason pred_day : String) : Nat :=
  (risk_data df pred_reason pred_day).length

/-- The percentage shown in the sidebar (`App.py` line 43):
`(risk_count / total_risk_cases) * 100`. -/
def prob (df : List Row) (pred_reason pred_day : String) : ℚ :=
  ((risk_count df pred_reason pred_day : ℚ) /
    (total_risk_cases df pred_reason pred_day : ℚ)) * 100

/-- Tagged result of the risk predictor: `InsufficientData` when the
matching subset is empty (`App.py` lines 52-53), an estimate otherwise. -/
inductive RiskEstimate where
  | InsufficientData : RiskEstimate
  | Estimate (probability : ℚ) (sampleSize : Nat) : RiskEstimate
deriving DecidableEq

/-- The predictor outcome (`App.py` lines 40-53): if the `(reason, day)`
subset of the full table is nonempty, an estimate whose probability is the
no-show fraction of that subset and whose sample size is its row count
(the source scales the fraction by 100 only for the displayed message);
otherwise `InsufficientData`. -/
def estimateRisk (df : List Row) (pred_reason pred_day : String) :
    RiskEstimate :=
  if 0 < (risk_data df pred_reason pred_day).length then
    .Estimate
      ((risk_count df pred_reason pred_day : ℚ) /
        (total_risk_cases df pred_reason pred_day : ℚ))
      (total_risk_cases df pred_reason pred_day)
  else .InsufficientData

/-- Risk category shown in the sidebar. -/
inductive RiskCategory where
  | High : RiskCategory
  | Moderate : RiskCategory
  | Low : RiskCategory
deriving DecidableEq

/-- Display category of the percentage `prob` (`App.py` lines 45-50):
High if `prob > 50`, else Moderate if `prob > 20`, else Low. -/
def riskCategory (p : ℚ) : RiskCategory :=
  if p > 50 then .High else if p > 20 then .Moderate else .Low

/-- Global date filter (`App.py` lines 81-84): rows whose date lies in the
inclusive `[d0, d1]` range. -/
def filtered_df (df : List Row) (d0 d1 : Nat) : List Row :=
  df.filter (fun r =>
    decide (d0 ≤ r.appointment_date) && decide (r.appointment_date ≤ d1))

/-- Headline metric (`App.py` line 88): number of no-show rows of a
subset. -/
def no_shows (subset : List Row) : Nat :=
  (subset.filter (fun r => r.status == "No-show")).length

/-- Headline metric (`App.py` line 89): the displayed no-show percentage,
`no_shows / total * 100` guarded to 0 when the subset is empty. -/
def rate (subset : List Row) : ℚ :=
  if 0 < subset.length then ((no_shows subset : ℚ) / (subset.length : ℚ)) * 100
  else 0

/-- Spec-level operation `noShowRate`, stated in the spec as the fraction
`count(status = No-show) / count(total)`, defined as 0 when the subset is
empty; compared below with the source's percentage `rate`. -/
def noShowRate (subset : List Row) : ℚ :=
  if subset.length = 0 then 0
  else (no_shows subset : ℚ) / (subset.length : ℚ)

/-- Pie chart data (`App.py` lines 113-115): the date-filtered subset,
further restricted to the selected statuses unless the `"All"` sentinel is
selected. -/
def pie_data (fdf : List Row) (status_choice : List String) : List Row :=
  if status_choice.contains "All" then fdf
  else fdf.filter (fun r => status_choice.contains r.status)

/-- Bar chart data (`App.py` lines 133-135): no-show rows of the
date-filtered subset, further restricted to the selected reasons unless
the `"All"` sentinel is selected. -/
def bar_data (fdf : List Row) (reason_choice : List String) : List Row :=
  let b := fdf.filter (fun r => r.status == "No-show")
  if reason_choice.contains "All" then b
  else b.filter (fun r => reason_choice.contains r.reason_for_visit)

/-- Trend chart data (`App.py` lines 160-162): the date-filtered subset,
further restricted to the selected days of week unless the `"All"`
sentinel is selected. -/
def trend_data (fdf : List Row) (day_choice : List String) : List Row :=
  if day_choice.contains "All" then fdf
  else fdf.filter (fun r => day_choice.contains r.day_of_week)

/-- Comparison used to order `value_counts` output: count descending,
ties by reason string ascending.  Pandas documents the descending count
order; it leaves the tie order unspecified, which the spec determinizes
by ascending reason. -/
def countLe (a b : String × Nat) : Bool :=
  decide (b.2 < a.2 ∨ (a.2 = b.2 ∧ a.1 ≤ b.1))

/-- Value counts of a list of category strings
(`value_counts()` at `App.py` line 138): each distinct value paired with
its number of occurrences, ordered by `countLe`. -/
def value_counts (l : List String) : List (String × Nat) :=
  (l.dedup.map (fun s => (s, l.count s))).mergeSort countLe

/-- Bar chart aggregation (`App.py` lines 138-139): value counts of
`reason_for_visit` over the (no-show-restricted) bar data. -/
def reason_counts (fdf : List Row) (reason_choice : List String) :
    List (String × Nat) :=
  value_counts ((bar_data fdf reason_choice).map (·.reason_for_visit))

/-- Spec-level operation `reasonCountsForNoShows`: value counts of
`reason_for_visit` restricted to the no-show rows of a subset.  It equals
`reason_counts` with the unrestricted reason selection. -/
def reasonCountsForNoShows (subset : List Row) : List (String × Nat) :=
  value_counts
    ((subset.filter (fun r => r.status == "No-show")).map (·.reason_for_visit))

/-- Comparison ordering `(date, status)` group keys: date ascending, then
status ascending — the ascending key order of pandas `groupby`. -/
def keyLe (a b : Nat × String) : Bool :=
  decide (a.1 < b.1 ∨ (a.1 = b.1 ∧ a.2 ≤ b.2))

/-- Trend aggregation (`App.py` line 164):
`groupby(["appointment_date", "status"]).size()` — each `(date, status)`
pair occurring in the subset with its row count, keys in ascending order;
pairs with no rows are never emitted. -/
def daily_trend (td : List Row) : List (Nat × String × Nat) :=
  ((td.map (fun r => (r.appointment_date, r.status))).dedup.mergeSort
      keyLe).map (fun k =>
    (k.1, k.2, (td.map (fun r => (r.appointment_date, r.status))).count k))

/-- Filter specification of the spec's engine: inclusive date range plus an
optional accepted-value set per categorical dimension (`none` means
unrestricted). -/
structure FilterSpec where
  dateLo : Nat
  dateHi : Nat
  status : Option (List String)
  reason : Option (List String)
  day : Option (List String)

/-- Acceptance of one categorical value by one optional dimension of a
filter specification. -/
def dimOk : Option (List String) → String → Bool
  | none, _ => true
  | some vs, x => vs.contains x

/-- Spec-level `filter(table, spec)`: rows satisfying the conjunction of
the date-range predicate and every set dimension. -/
def filterTable (table : List Row) (spec : FilterSpec) : List Row :=
  table.filter (fun r =>
    decide (spec.dateLo ≤ r.appointment_date) &&
    decide (r.appointment_date ≤ spec.dateHi) &&
    dimOk spec.status r.status &&
    dimOk spec.reason r.reason_for_visit &&
    dimOk spec.day r.day_of_week)

/-- Spec-level `countByStatus`: each status occurring in the subset with
its row count. -/
def countByStatus (subset : List Row) : List (String × Nat) :=
  (subset.map (·.status)).dedup.map
    (fun s => (s, (subset.map (·.status)).count s))

/-- CSV cell: category columns serialize as strings, the date column as a
date value (its textual rendering is irrelevant to the logic). -/
inductive Cell where
  | str (s : String) : Cell
  | date (d : Nat) : Cell
deriving DecidableEq

/-- Header line of the exported CSV: the loaded schema plus the derived
`day_of_week` column. -/
def csvHeader : List Cell :=
  [.str "appointment_date", .str "status", .str "reason_for_visit",
    .str "day_of_week"]

/-- Cells of one exported row, one per column of the loaded table. -/
def rowCells (r : Row) : List Cell :=
  [.date r.appointment_date, .str r.status, .str r.reason_for_visit,
    .str r.day_of_week]

/-- Serialization `df.to_csv(index=False)` (`App.py` line 58): header line
followed by one line per row of the full table. -/
def to_csv (df : List Row) : List (List Cell) :=
  csvHeader :: df.map rowCells

/-- Inverse of `rowCells`. -/
def parseRow : List Cell → Option Row
  | [.date d, .str s, .str re, .str dw] =>
    some { appointment_date := d, status := s, reason_for_visit := re,
           day_of_week := dw }
  | _ => none

/-- Parses a list of exported row lines back to rows. -/
def parseRows : List (List Cell) → Option (List Row)
  | [] => some []
  | c :: cs =>
    match parseRow c, parseRows cs with
    | some r, some rs => some (r :: rs)
    | _, _ => none

/-- Parses an exported CSV: checks the header line, then parses each row
line. -/
def parse_csv : List (List Cell) → Option (List Row)
  | [] => none
  | h :: body => if h = csvHeader then parseRows body else none

/-- View model of one full recomputation pass of the dashboard: the
sidebar risk estimate, the downloadable CSV, and the three chart data
sets.  The risk estimate and the CSV are computed from the full table
`df`; the charts from the date-filtered subset. -/
structure DashboardView where
  risk : RiskEstimate
  csv : List (List Cell)
  pie : List Row
  bar : List (String × Nat)
  trend : List (Nat × String × Nat)
deriving DecidableEq

/-- One full recomputation pass of `App.py` as a pure function of the
loaded table and the widget states. -/
def compute (df : List Row) (d0 d1 : Nat) (pred_reason pred_day : String)
    (status_choice reason_choice day_choice : List String) :
    DashboardView :=
  let fdf := filtered_df df d0 d1
  { risk := estimateRisk df pred_reason pred_day
    csv := to_csv df
    pie := pie_data fdf status_choice
    bar := reason_counts fdf reason_choice
    trend := daily_trend (trend_data fdf day_choice) }

/-! Concrete example table: the spec's end-to-end example rows
(2024-01-01 and 2024-01-08 are Mondays; day indices 0 and 7). -/

/-- Raw rows of the spec's end-to-end example. -/
def exRaw : List RawRow :=
  [{ appointment_date := 0, status := "No-show", reason_for_visit := "Fever" },
   { appointment_date := 0, status := "Scheduled", reason_for_visit := "Fever" },
   { appointment_date := 7, status := "No-show", reason_for_visit := "Fever" }]

/-- The example table after loading. -/
def exTable : List Row := load_data exRaw

/-- C1: `estimateRisk` returns `InsufficientData` iff the `(reason, day)`
subset of the full table is empty; otherwise it returns an estimate whose
sample size is that subset's row count and whose probability is the
subset's no-show count divided by that row count. -/
theorem estimateRisk_insufficient_iff (df : List Row)
    (pred_reason pred_day : String) :
    (estimateRisk df pred_reason pred_day = .InsufficientData ↔
      risk_data df pred_reason pred_day = []) ∧
    (risk_data df pred_reason pred_day ≠ [] →
      estimateRisk df pred_reason pred_day =
        .Estimate
          ((risk_count df pred_reason pred_day : ℚ) /
            ((risk_data df pred_reason pred_day).length : ℚ))
          ((risk_data df pred_reason pred_day).length) ∧
      prob df pred_reason pred_day =
        ((risk_count df pred_reason pred_day : ℚ) /
          ((risk_data df pred_reason pred_day).length : ℚ)) * 100) := by
  by_cases h : risk_data df pred_reason pred_day = []
  · exact ⟨by simp [estimateRisk, h], fun hne => absurd h hne⟩
  · have hlen : 0 < (risk_data df pred_reason pred_day).length :=
      List.length_pos.mpr h
    refine ⟨by simp [estimateRisk, hlen, h], fun _ => ⟨?_, ?_⟩⟩
    · simp [estimateRisk, hlen, total_risk_cases]
    · simp [prob, total_risk_cases]

/-- Witness for C1 at the spec's end-to-end example: the Fever/Monday
subset of the example table is nonempty and the estimate is
`Estimate (2/3) 3`. -/
theorem estimateRisk_insufficient_iff_witness :
    risk_data exTable "Fever" "Monday" ≠ [] ∧
    estimateRisk exTable "Fever" "Monday" = .Estimate (2/3) 3 := by
  have h :=
    (estimateRisk_insufficient_iff exTable "Fever" "Monday").2 (by decide)
  refine ⟨by decide, h.1.trans ?_⟩
  rw [show risk_count exTable "Fever" "Monday" = 2 from rfl,
    show (risk_data exTable "Fever" "Monday").length = 3 from rfl]
  norm_num

/-- C2: the displayed risk category is a pure function of the estimated
probability `p` (shown as the percentage `100 * p`): High iff `p > 1/2`,
Moderate iff `1/5 < p ≤ 1/2`, Low iff `p ≤ 1/5`; in particular exactly
`1/2` is not High and exactly `1/5` is not Moderate. -/
theorem riskCategory_thresholds (p : ℚ) :
    (riskCategory (100 * p) = .High ↔ 1/2 < p) ∧
    (riskCategory (100 * p) = .Moderate ↔ 1/5 < p ∧ ¬ 1/2 < p) ∧
    (riskCategory (100 * p) = .Low ↔ ¬ 1/5 < p) ∧
    riskCategory (100 * (1/2 : ℚ)) ≠ .High ∧
    riskCategory (100 * (1/5 : ℚ)) ≠ .Moderate := by
  have h50 : (50 : ℚ) < 100 * p ↔ 1/2 < p := by
    constructor <;> intro h <;> linarith
  have h20 : (20 : ℚ) < 100 * p ↔ 1/5 < p := by
    constructor <;> intro h <;> linarith
  refine ⟨?_, ?_, ?_, by norm_num [riskCategory]; decide, by norm_num [riskCategory]; decide⟩ <;>
    · unfold riskCategory
      split_ifs with h1 h2 <;>
        simp_all [h50.symm, h20.symm] <;> linarith

/-- C3: the source's displayed `rate` is `100 *` the spec-level
`noShowRate`; `noShowRate` is 0 on the empty subset, and on a nonempty
subset it is the no-show count divided by the row count and lies in
`[0, 1]`. -/
theorem noShowRate_spec (subset : List Row) :
    rate subset = 100 * noShowRate subset ∧
    (subset.length = 0 → noShowRate subset = 0) ∧
    (0 < subset.length →
      noShowRate subset = (no_shows subset : ℚ) / (subset.length : ℚ) ∧
      0 ≤ noShowRate subset ∧ noShowRate subset ≤ 1) := by
  by_cases h : subset.length = 0
  · simp [rate, noShowRate, h]
  · have hpos : 0 < subset.length := Nat.pos_of_ne_zero h
    have hns : no_shows subset ≤ subset.length := List.length_filter_le _ _
    have hcast : (0 : ℚ) < (subset.length : ℚ) := by exact_mod_cast hpos
    refine ⟨?_, fun h0 => absurd h0 h, fun _ => ⟨?_, ?_, ?_⟩⟩
    · simp [rate, noShowRate, h, hpos, mul_comm]
    · simp [noShowRate, h]
    · simp only [noShowRate, h, if_false]
      positivity
    · simp only [noShowRate, h, if_false]
      rw [div_le_one hcast]
      exact_mod_cast hns

/-- Witness for C3 at the example table: the date-filtered subset covering
both dates has three rows, and its no-show rate is `2/3`. -/
theorem noShowRate_spec_witness :
    0 < (filtered_df exTable 0 7).length ∧
    noShowRate (filtered_df exTable 0 7) =
      (no_shows (filtered_df exTable 0 7) : ℚ) /
        ((filtered_df exTable 0 7).length : ℚ) := by
  have h := ((noShowRate_spec (filtered_df exTable 0 7)).2.2 (by decide)).1
  exact ⟨by decide, h⟩

/-- C4: the sidebar risk estimate is computed from the full loaded table:
the risk component of a full dashboard pass equals `estimateRisk` on the
full table and is unchanged by any change of the date range or of the
three chart selections. -/
theorem risk_independent_of_filters (df : List Row) (d0 d1 d0' d1' : Nat)
    (pred_reason pred_day : String)
    (sc rc dc sc' rc' dc' : List String) :
    (compute df d0 d1 pred_reason pred_day sc rc dc).risk =
      estimateRisk df pred_reason pred_day ∧
    (compute df d0 d1 pred_reason pred_day sc rc dc).risk =
      (compute df d0' d1' pred_reason pred_day sc' rc' dc').risk :=
  ⟨rfl, rfl⟩

/-- C9: for each of the three multiselect dimensions, the empty selection
(which does not contain the `"All"` sentinel) matches nothing, while the
unrestricted `["All"]` selection leaves the chart's base data unchanged. -/
theorem empty_selection_matches_nothing (fdf : List Row) :
    pie_data fdf [] = [] ∧ bar_data fdf [] = [] ∧ trend_data fdf [] = [] ∧
    pie_data fdf ["All"] = fdf ∧
    bar_data fdf ["All"] = fdf.filter (fun r => r.status == "No-show") ∧
    trend_data fdf ["All"] = fdf := by
  simp [pie_data, bar_data, trend_data]

/-- C10: whenever the selection contains the `"All"` sentinel, each
multiselect filter is the identity on its chart's base data, regardless of
the other selected values. -/
theorem all_sentinel_identity (fdf : List Row) (sc rc dc : List String)
    (hs : "All" ∈ sc) (hr : "All" ∈ rc) (hd : "All" ∈ dc) :
    pie_data fdf sc = fdf ∧
    bar_data fdf rc = fdf.filter (fun r => r.status == "No-show") ∧
    trend_data fdf dc = fdf := by
  simp [pie_data, bar_data, trend_data, hs, hr, hd]

/-- Witness for C10: with `["All", "Fever"]` selected on every dimension,
each chart's data equals its base data on the example table. -/
theorem all_sentinel_identity_witness :
    "All" ∈ ["All", "Fever"] ∧
    pie_data exTable ["All", "Fever"] = exTable ∧
    bar_data exTable ["All", "Fever"] =
      exTable.filter (fun r => r.status == "No-show") ∧
    trend_data exTable ["All", "Fever"] = exTable := by
  have h := all_sentinel_identity exTable ["All", "Fever"] ["All", "Fever"]
    ["All", "Fever"] (by decide) (by decide) (by decide)
  exact ⟨by decide, h.1, h.2.1, h.2.2⟩

/-- Counting each key of a duplicate-free key list that covers a list `l`
and summing recovers the length of `l`. -/
theorem sum_counts_of_keys {α : Type} [DecidableEq α] :
    ∀ (keys : List α), keys.Nodup → ∀ (l : List α), (∀ x ∈ l, x ∈ keys) →
      (keys.map (fun k => l.count k)).sum = l.length
  | [], _, l, hmem => by
    cases l with
    | nil => simp
    | cons a t => exact absurd (hmem a (by simp)) (by simp)
  | k :: ks, hnd, l, hmem => by
    obtain ⟨hk, hnd'⟩ := List.nodup_cons.mp hnd
    have hcongr : ∀ k' ∈ ks,
        l.count k' = (l.filter (fun a => !(a == k))).count k' := by
      intro k' hk'
      have hne : k' ≠ k := fun h => hk (h ▸ hk')
      rw [List.count_filter (by simp [hne])]
    have hmem' : ∀ x ∈ l.filter (fun a => !(a == k)), x ∈ ks := by
      intro x hx
      rw [List.mem_filter] at hx
      have hxk : x ≠ k := by simpa using hx.2
      have := hmem x hx.1
      simp only [List.mem_cons] at this
      exact this.resolve_left hxk
    have ih := sum_counts_of_keys ks hnd' (l.filter (fun a => !(a == k))) hmem'
    calc ((k :: ks).map (fun k' => l.count k')).sum
        = l.count k + (ks.map (fun k' => l.count k')).sum := by simp
      _ = l.count k +
          (ks.map (fun k' => (l.filter (fun a => !(a == k))).count k')).sum := by
          rw [List.map_congr_left hcongr]
      _ = (l.filter (· == k)).length +
          (l.filter (fun a => !(a == k))).length := by
          rw [ih, List.count_eq_countP, List.countP_eq_length_filter]
      _ = l.length := (List.length_eq_length_filter_add (· == k)).symm

/-- Summing the occurrence counts of the deduplicated values of a list
recovers its length. -/
theorem sum_map_count_dedup {α : Type} [DecidableEq α] (l : List α) :
    (l.dedup.map (fun a => l.count a)).sum = l.length :=
  sum_counts_of_keys l.dedup l.nodup_dedup l
    (fun _ hx => List.mem_dedup.mpr hx)

/-- C7: the status counts partition the filtered subset — for every table
and filter specification, the values of `countByStatus` over the filtered
subset sum to the filtered subset's row count. -/
theorem countByStatus_partition (table : List Row) (spec : FilterSpec) :
    ((countByStatus (filterTable table spec)).map (fun p => p.2)).sum =
      (filterTable table spec).length := by
  unfold countByStatus
  rw [List.map_map]
  have h : ((fun p : String × Nat => p.2) ∘
      fun s => (s, ((filterTable table spec).map (·.status)).count s)) =
      fun s => ((filterTable table spec).map (·.status)).count s := rfl
  rw [h, sum_map_count_dedup, List.length_map]

/-- Transitivity of the `value_counts` ordering. -/
theorem countLe_trans (a b c : String × Nat) (hab : countLe a b)
    (hbc : countLe b c) : countLe a c := by
  simp only [countLe, decide_eq_true_eq] at hab hbc ⊢
  rcases hab with h1 | ⟨h1, h2⟩ <;> rcases hbc with h3 | ⟨h3, h4⟩
  · exact Or.inl (lt_trans h3 h1)
  · exact Or.inl (h3 ▸ h1)
  · exact Or.inl (h1 ▸ h3)
  · exact Or.inr ⟨h1.trans h3, le_trans h2 h4⟩

/-- Totality of the `value_counts` ordering. -/
theorem countLe_total (a b : String × Nat) : countLe a b || countLe b a := by
  simp only [countLe, Bool.or_eq_true, decide_eq_true_eq]
  rcases lt_trichotomy a.2 b.2 with h | h | h
  · exact Or.inr (Or.inl h)
  · rcases le_total a.1 b.1 with hs | hs
    · exact Or.inl (Or.inr ⟨h, hs⟩)
    · exact Or.inr (Or.inr ⟨h.symm, hs⟩)
  · exact Or.inl (Or.inl h)

/-- Membership in `value_counts`: exactly the pairs of an occurring value
with its occurrence count. -/
theorem value_counts_mem (l : List String) (p : String × Nat) :
    p ∈ value_counts l ↔ p.1 ∈ l ∧ p.2 = l.count p.1 := by
  unfold value_counts
  rw [List.mem_mergeSort, List.mem_map]
  constructor
  · rintro ⟨s, hs, rfl⟩
    exact ⟨List.mem_dedup.mp hs, rfl⟩
  · rintro ⟨h1, h2⟩
    refine ⟨p.1, List.mem_dedup.mpr h1, ?_⟩
    obtain ⟨p1, p2⟩ := p
    simpa using h2.symm

/-- The output of `value_counts` is sorted: counts strictly descending,
equal counts ordered by strictly ascending value. -/
theorem value_counts_sorted (l : List String) :
    (value_counts l).Pairwise
      (fun a b => b.2 < a.2 ∨ (a.2 = b.2 ∧ a.1 < b.1)) := by
  have hs : (value_counts l).Pairwise (fun a b => countLe a b) :=
    List.sorted_mergeSort countLe_trans countLe_total
      (l.dedup.map (fun s => (s, l.count s)))
  have hperm : List.Perm (value_counts l)
      (l.dedup.map (fun s => (s, l.count s))) :=
    List.mergeSort_perm _ _
  have hmapfst : (l.dedup.map (fun s => (s, l.count s))).map Prod.fst =
      l.dedup := by
    rw [List.map_map]
    exact List.map_id _
  have hnodup : ((value_counts l).map Prod.fst).Nodup :=
    (hperm.map Prod.fst).nodup_iff.mpr
      (by rw [hmapfst]; exact l.nodup_dedup)
  have hne : (value_counts l).Pairwise (fun a b => a.1 ≠ b.1) :=
    List.pairwise_map.mp hnodup
  refine List.Pairwise.imp₂ ?_ hs hne
  intro a b h1 h2
  simp only [countLe, decide_eq_true_eq] at h1
  rcases h1 with h | ⟨he, hle⟩
  · exact Or.inl h
  · exact Or.inr ⟨he, lt_of_le_of_ne hle h2⟩

/-- C5: every pair emitted by `reasonCountsForNoShows` pairs a reason with
its row count among no-show rows only, exactly the reasons occurring among
no-show rows are emitted, the output is sorted by count descending with
ties broken by reason ascending, and the source's bar aggregation with the
unrestricted selection computes exactly this operation. -/
theorem reasonCountsForNoShows_spec (subset : List Row) :
    (∀ p ∈ reasonCountsForNoShows subset,
      p.2 = ((subset.filter (fun r => r.status == "No-show")).filter
        (fun r => r.reason_for_visit == p.1)).length) ∧
    (∀ re, (∃ n, (re, n) ∈ reasonCountsForNoShows subset) ↔
      re ∈ (subset.filter (fun r => r.status == "No-show")).map
        (·.reason_for_visit)) ∧
    (reasonCountsForNoShows subset).Pairwise
      (fun a b => b.2 < a.2 ∨ (a.2 = b.2 ∧ a.1 < b.1)) ∧
    reason_counts subset ["All"] = reasonCountsForNoShows subset := by
  refine ⟨?_, ?_, value_counts_sorted _, ?_⟩
  · intro p hp
    have h := (value_counts_mem _ p).mp hp
    rw [h.2, List.count_eq_countP, List.countP_map,
      List.countP_eq_length_filter]
    rfl
  · intro re
    constructor
    · rintro ⟨n, hn⟩
      exact ((value_counts_mem _ (re, n)).mp hn).1
    · intro hre
      exact ⟨((subset.filter (fun r => r.status == "No-show")).map
          (·.reason_for_visit)).count re,
        (value_counts_mem _ _).mpr ⟨hre, rfl⟩⟩
  · simp [reason_counts, bar_data, reasonCountsForNoShows]

/-- Witness for C5 at the example table: `("Fever", 2)` is emitted and 2
is indeed the number of no-show rows with reason Fever. -/
theorem reasonCountsForNoShows_spec_witness :
    ("Fever", 2) ∈ reasonCountsForNoShows exTable ∧
    (2 : Nat) = ((exTable.filter (fun r => r.status == "No-show")).filter
      (fun r => r.reason_for_visit == "Fever")).length := by
  have hmem : ("Fever", 2) ∈ reasonCountsForNoShows exTable :=
    (value_counts_mem _ ("Fever", 2)).mpr ⟨by decide, by decide⟩
  exact ⟨hmem, (reasonCountsForNoShows_spec exTable).1 ("Fever", 2) hmem⟩

/-- Transitivity of the `(date, status)` key ordering. -/
theorem keyLe_trans (a b c : Nat × String) (hab : keyLe a b)
    (hbc : keyLe b c) : keyLe a c := by
  simp only [keyLe, decide_eq_true_eq] at hab hbc ⊢
  rcases hab with h1 | ⟨h1, h2⟩ <;> rcases hbc with h3 | ⟨h3, h4⟩
  · exact Or.inl (lt_trans h1 h3)
  · exact Or.inl (h3 ▸ h1)
  · exact Or.inl (h1 ▸ h3)
  · exact Or.inr ⟨h1.trans h3, le_trans h2 h4⟩

/-- Totality of the `(date, status)` key ordering. -/
theorem keyLe_total (a b : Nat × String) : keyLe a b || keyLe b a := by
  simp only [keyLe, Bool.or_eq_true, decide_eq_true_eq]
  rcases lt_trichotomy a.1 b.1 with h | h | h
  · exact Or.inl (Or.inl h)
  · rcases le_total a.2 b.2 with hs | hs
    · exact Or.inl (Or.inr ⟨h, hs⟩)
    · exact Or.inr (Or.inr ⟨h.symm, hs⟩)
  · exact Or.inr (Or.inl h)

/-- Membership in `daily_trend`: exactly the `(date, status)` pairs
occurring in the subset, each with its occurrence count. -/
theorem daily_trend_mem (td : List Row) (t : Nat × String × Nat) :
    t ∈ daily_trend td ↔
      (t.1, t.2.1) ∈ td.map (fun r => (r.appointment_date, r.status)) ∧
      t.2.2 = (td.map (fun r => (r.appointment_date, r.status))).count
        (t.1, t.2.1) := by
  unfold daily_trend
  constructor
  · intro ht
    obtain ⟨k, hk, rfl⟩ := List.mem_map.mp ht
    rw [List.mem_mergeSort] at hk
    exact ⟨List.mem_dedup.mp hk, rfl⟩
  · rintro ⟨h1, h2⟩
    apply List.mem_map.mpr
    refine ⟨(t.1, t.2.1), ?_, ?_⟩
    · rw [List.mem_mergeSort]
      exact List.mem_dedup.mpr h1
    · obtain ⟨a, b, c⟩ := t
      simp only at h2 ⊢
      rw [h2]

/-- The output of `daily_trend` is ordered by date strictly interleaved
with status: date ascending, and status strictly ascending within one
date. -/
theorem daily_trend_sorted (td : List Row) :
    (daily_trend td).Pairwise
      (fun a b => a.1 < b.1 ∨ (a.1 = b.1 ∧ a.2.1 < b.2.1)) := by
  unfold daily_trend
  rw [List.pairwise_map]
  have hs := List.sorted_mergeSort keyLe_trans keyLe_total
    ((td.map (fun r => (r.appointment_date, r.status))).dedup)
  have hnd : ((td.map (fun r =>
      (r.appointment_date, r.status))).dedup.mergeSort keyLe).Nodup :=
    (List.mergeSort_perm _ _).nodup_iff.mpr (List.nodup_dedup _)
  refine List.Pairwise.imp₂ ?_ hs hnd
  intro a b h1 h2
  simp only [keyLe, decide_eq_true_eq] at h1
  rcases h1 with h | ⟨he, hle⟩
  · exact Or.inl h
  · refine Or.inr ⟨he, lt_of_le_of_ne hle fun hss => h2 ?_⟩
    exact Prod.ext he hss

/-- C6: every triple emitted by `dailyTrend` is an occurring
`(date, status)` pair with its positive row count, every occurring pair is
emitted, and the output is ordered by date ascending then status
ascending. -/
theorem daily_trend_spec (td : List Row) :
    (∀ t ∈ daily_trend td,
      (t.1, t.2.1) ∈ td.map (fun r => (r.appointment_date, r.status)) ∧
      t.2.2 = (td.filter (fun r =>
        r.appointment_date == t.1 && r.status == t.2.1)).length ∧
      0 < t.2.2) ∧
    (∀ d s, (d, s) ∈ td.map (fun r => (r.appointment_date, r.status)) →
      ∃ n, (d, s, n) ∈ daily_trend td) ∧
    (daily_trend td).Pairwise
      (fun a b => a.1 < b.1 ∨ (a.1 = b.1 ∧ a.2.1 < b.2.1)) := by
  refine ⟨?_, ?_, daily_trend_sorted td⟩
  · intro t ht
    have h := (daily_trend_mem td t).mp ht
    have hpos : 0 < t.2.2 := by
      rw [h.2]
      exact List.count_pos_iff.mpr h.1
    refine ⟨h.1, ?_, hpos⟩
    rw [h.2, List.count_eq_countP, List.countP_map,
      List.countP_eq_length_filter]
    rfl
  · intro d s hds
    exact ⟨(td.map (fun r => (r.appointment_date, r.status))).count (d, s),
      (daily_trend_mem td (d, s, _)).mpr ⟨hds, rfl⟩⟩

/-- Witness for C6 at the example table: the pair `(0, "No-show")` occurs
and is emitted with some count. -/
theorem daily_trend_spec_witness :
    (0, "No-show") ∈ exTable.map (fun r => (r.appointment_date, r.status)) ∧
    ∃ n, ((0 : Nat), ("No-show", n)) ∈ daily_trend exTable := by
  exact ⟨by decide, (daily_trend_spec exTable).2.1 0 "No-show" (by decide)⟩

/-- Parsing the cells of a serialized row recovers the row. -/
theorem parseRow_rowCells (r : Row) : parseRow (rowCells r) = some r := rfl

/-- Parsing the serialized body recovers the table. -/
theorem parseRows_map_rowCells (df : List Row) :
    parseRows (df.map rowCells) = some df := by
  induction df with
  | nil => rfl
  | cons r t ih => simp [parseRows, parseRow_rowCells, ih]

/-- C8: the downloadable CSV of a dashboard pass is the full loaded table
serialized with no filtering — parsing it back yields exactly the loaded
table, it has one line per row plus the header (the loaded schema plus the
derived `day_of_week` column), and the derived column of every loaded row
is the weekday name of its date. -/
theorem csv_roundtrip (raws : List RawRow) (d0 d1 : Nat)
    (pred_reason pred_day : String) (sc rc dc : List String) :
    (compute (load_data raws) d0 d1 pred_reason pred_day sc rc dc).csv =
      to_csv (load_data raws) ∧
    parse_csv (to_csv (load_data raws)) = some (load_data raws) ∧
    (to_csv (load_data raws)).length = (load_data raws).length + 1 ∧
    (load_data raws).map (fun r => r.day_of_week) =
      raws.map (fun r => dayName r.appointment_date) := by
  refine ⟨rfl, ?_, by simp [to_csv], ?_⟩
  · simp [parse_csv, to_csv, parseRows_map_rowCells]
  · simp [load_data, List.map_map]

end NoShow
